import Mathlib

/-!
Verification development for the cosmos-api-watch endpoint health-check engine.

Shallow embedding of `src/cosmos_api_watch/worker/checker.py` and
`worker/runner.py`.  Python strings are modelled as `List Char`; machine
integers as `Nat`/`Int`; `datetime` instants as microseconds since the Unix
epoch (`Int`); fallible Python code (code that may raise) returns
`Except Str _` where the error carries the rendered exception message.
`datetime.fromisoformat` is modelled on CPython 3.11 semantics for the
extended (dashed) ISO-8601 format, which is the format this system's
timestamps use.  The staleness computation `int(total_seconds() * 1000)`
runs through IEEE-754 binary64 arithmetic in Python and is modelled
bit-exactly: each float operation is the correctly rounded (round half to
even) binary64 result of the exact rational operation, carried as an exact
dyadic value.
-/

abbrev Str := List Char

/-- Python `s.split(sep, 1)` for a single-character separator: `none` when the
separator does not occur (Python `sep in s` is false), otherwise the pieces
before and after the first occurrence. -/
def splitFirstChar (c : Char) : Str → Option (Str × Str)
  | [] => none
  | x :: xs =>
    if x = c then some ([], xs)
    else
      match splitFirstChar c xs with
      | none => none
      | some (a, b) => some (x :: a, b)

/-- Python `s.endswith(z)` for a single-character suffix. -/
def endsWithChar (s : Str) (c : Char) : Bool := s.getLast? = some c

/-- Python `s.rstrip("/")`: remove all trailing slashes. -/
def pyRstripSlash (s : Str) : Str := (s.reverse.dropWhile (fun c => c = '/')).reverse

/-- Python `s.lower()` (ASCII, which is all the classifier patterns need). -/
def pyLower (s : Str) : Str := s.map Char.toLower

/-- Python `pat in s` (substring containment). -/
def containsSub : Str → Str → Bool
  | [], pat => pat.isEmpty
  | x :: xs, pat => pat.isPrefixOf (x :: xs) || containsSub xs pat

/-- Python `s.startswith(pat)`. -/
def pyStartsWith (s pat : Str) : Bool := pat.isPrefixOf s

/-- Decimal rendering of a `Nat`, as Python `str(n)` / f-string interpolation. -/
def natStr (n : Nat) : Str := (Nat.repr n).data

/-- Value of a list of ASCII digits. -/
def digitsToNat (ds : Str) : Nat := ds.foldl (fun a c => a * 10 + (c.toNat - 48)) 0

/-! ## The Python `datetime` model -/

/-- A parsed `datetime.datetime`: calendar fields plus an optional fixed UTC
offset in minutes (`tzinfo`); `none` models a naive datetime. -/
structure PyDatetime where
  year : Nat
  month : Nat
  day : Nat
  hour : Nat
  minute : Nat
  second : Nat
  microsecond : Nat
  tzOffsetMinutes : Option Int
deriving DecidableEq, Repr

def isLeapYear (y : Nat) : Bool := y % 4 = 0 && (y % 100 ≠ 0 || y % 400 = 0)

def daysInMonth (y m : Nat) : Nat :=
  if m = 2 then (if isLeapYear y then 29 else 28)
  else if m = 4 ∨ m = 6 ∨ m = 9 ∨ m = 11 then 30
  else 31

/-- Days from 1970-01-01 to the civil date y-m-d (proleptic Gregorian),
for years ≥ 1 (Python's `MINYEAR`). -/
def daysFromCivil (y m d : Nat) : Int :=
  let yy := if m ≤ 2 then y - 1 else y
  let era := yy / 400
  let yoe := yy % 400
  let mp := (m + 9) % 12
  let doy := (153 * mp + 2) / 5 + d - 1
  let doe := yoe * 365 + yoe / 4 - yoe / 100 + doy
  (era : Int) * 146097 + (doe : Int) - 719468

/-- The UTC instant of the calendar fields read as UTC (no offset applied),
in microseconds since the epoch. -/
def fieldsUtcMicros (y m d hh mi ss micro : Nat) : Int :=
  ((daysFromCivil y m d * 86400 + hh * 3600 + mi * 60 + ss) * 1000000 + micro : Int)

/-- `dt.replace(tzinfo=utc)` when naive, then `dt.astimezone(utc)`: the
absolute UTC instant in microseconds since the epoch. -/
def PyDatetime.toUtcMicros (dt : PyDatetime) : Int :=
  let naive := fieldsUtcMicros dt.year dt.month dt.day dt.hour dt.minute dt.second dt.microsecond
  match dt.tzOffsetMinutes with
  | none => naive
  | some off => naive - off * 60 * 1000000

/-- Read exactly `n` ASCII digits off the front of `cs`. -/
def readDigits (n : Nat) (cs : Str) : Option (Nat × Str) :=
  let pre := cs.take n
  if pre.length = n && pre.all Char.isDigit then some (digitsToNat pre, cs.drop n)
  else none

/-- Expect the literal character `c` at the front. -/
def expectChar (c : Char) : Str → Option Str
  | [] => none
  | x :: xs => if x = c then some xs else none

/-- Parse an optional UTC offset suffix `±HH:MM` (or `Z`/`z`), which must end
the string.  Returns the offset in minutes. -/
def readTzSuffix (cs : Str) : Option (Option Int) :=
  match cs with
  | [] => some none
  | 'Z' :: [] => some (some 0)
  | 'z' :: [] => some (some 0)
  | sign :: rest =>
    if sign = '+' ∨ sign = '-' then
      match readDigits 2 rest with
      | none => none
      | some (hh, rest1) =>
        match expectChar ':' rest1 with
        | none => none
        | some rest2 =>
          match readDigits 2 rest2 with
          | none => none
          | some (mm, rest3) =>
            if rest3 = [] ∧ hh ≤ 23 ∧ mm ≤ 59 then
              some (some ((if sign = '+' then 1 else -1) * (hh * 60 + mm : Nat)))
            else none
    else none

/-- Parse `[.ffffff]` (1–6 fractional digits) then the offset suffix. -/
def readFracAndTz (cs : Str) : Option (Nat × Option Int) :=
  match cs with
  | '.' :: rest =>
    let ds := rest.takeWhile Char.isDigit
    if ds.length = 0 ∨ ds.length > 6 then none
    else
      match readTzSuffix (rest.drop ds.length) with
      | none => none
      | some tz => some (digitsToNat ds * 10 ^ (6 - ds.length), tz)
  | _ =>
    match readTzSuffix cs with
    | none => none
    | some tz => some (0, tz)

/-- Parse the time-of-day part `HH[:MM[:SS[.ffffff]]][±HH:MM]`. -/
def readTimePart (cs : Str) : Option (Nat × Nat × Nat × Nat × Option Int) :=
  match readDigits 2 cs with
  | none => none
  | some (hh, rest) =>
    match expectChar ':' rest with
    | none =>
      match readTzSuffix rest with
      | none => none
      | some tz => some (hh, 0, 0, 0, tz)
    | some rest1 =>
      match readDigits 2 rest1 with
      | none => none
      | some (mi, rest2) =>
        match expectChar ':' rest2 with
        | none =>
          match readFracAndTz rest2 with
          | none => none
          | some (micro, tz) => some (hh, mi, 0, micro, tz)
        | some rest3 =>
          match readDigits 2 rest3 with
          | none => none
          | some (ss, rest4) =>
            match readFracAndTz rest4 with
            | none => none
            | some (micro, tz) => some (hh, mi, ss, micro, tz)

/-- `datetime.fromisoformat` (CPython 3.11, extended format):
`YYYY-MM-DD[*HH[:MM[:SS[.ffffff]]][±HH:MM]]` with field validation.
The date separator may be any single character, as in CPython. -/
def fromisoformat (s : Str) : Option PyDatetime :=
  match readDigits 4 s with
  | none => none
  | some (y, r1) =>
    match expectChar '-' r1 with
    | none => none
    | some r2 =>
      match readDigits 2 r2 with
      | none => none
      | some (m, r3) =>
        match expectChar '-' r3 with
        | none => none
        | some r4 =>
          match readDigits 2 r4 with
          | none => none
          | some (d, r5) =>
            if ¬ (1 ≤ y ∧ 1 ≤ m ∧ m ≤ 12 ∧ 1 ≤ d ∧ d ≤ daysInMonth y m) then none
            else
              match r5 with
              | [] => some ⟨y, m, d, 0, 0, 0, 0, none⟩
              | _sep :: r6 =>
                match readTimePart r6 with
                | none => none
                | some (hh, mi, ss, micro, tz) =>
                  if hh ≤ 23 ∧ mi ≤ 59 ∧ ss ≤ 59 then
                    some ⟨y, m, d, hh, mi, ss, micro, tz⟩
                  else none

/-! ## `checker.py`: `_parse_block_time` and `_calc_block_delay_ms` -/

/-- The string rewriting `_parse_block_time` performs before calling
`fromisoformat`: trailing `Z` becomes `+00:00`, then a fractional-seconds
component is cut to at most 6 digits (`frac[:6]`), honouring the sign that
separates the fraction from a UTC offset. -/
def pbtPreprocess (ts : Str) : Str :=
  let ts := if endsWithChar ts 'Z' then ts.dropLast ++ "+00:00".data else ts
  match splitFirstChar '.' ts with
  | none => ts
  | some (before, after) =>
    match splitFirstChar '+' after with
    | some (frac, tz) => before ++ '.' :: frac.take 6 ++ '+' :: tz
    | none =>
      match splitFirstChar '-' after with
      | some (frac, tz) => before ++ '.' :: frac.take 6 ++ '-' :: tz
      | none => before ++ '.' :: after.take 6

/-- `_parse_block_time` (checker.py:9): returns the absolute UTC instant in
microseconds since the epoch, or `none` when the text cannot be parsed.
The Python function never raises: the `fromisoformat` call is inside a
`try/except` returning `None`. -/
def parse_block_time (ts : Str) : Option Int :=
  if ts.isEmpty then none
  else
    match fromisoformat (pbtPreprocess ts) with
    | none => none
    | some dt => some dt.toUtcMicros

/-- An exact binary64 value `mant * 2^exp`, with the sign carried by the
mantissa. -/
structure Dyadic where
  mant : Int
  exp : Int
deriving DecidableEq, Repr

def log2Fuel : Nat → Nat → Nat
  | 0, _ => 0
  | fuel + 1, n => if 2 ≤ n then log2Fuel fuel (n / 2) + 1 else 0

/-- Floor of log₂ for positive naturals. -/
def natLog2 (n : Nat) : Nat := log2Fuel n n

/-- Does `2^j ≤ num/den` hold? -/
def ratGePow2 (num den : Nat) (j : Int) : Bool :=
  if 0 ≤ j then den * 2 ^ j.toNat ≤ num else den ≤ num * 2 ^ (-j).toNat

/-- The nearest binary64 double to the positive rational `num/den` under
round half to even, returned exactly as `mant * 2^exp` with a 53-bit
mantissa.  The value is assumed to lie in binary64's normal finite range,
which every magnitude this program computes does (the smallest nonzero
`total_seconds` is 10⁻⁶). -/
def roundPosRatToDouble (num den : Nat) : Dyadic :=
  let a : Int := natLog2 num
  let b : Int := natLog2 den
  let k : Int := if ratGePow2 num den (a - b) then a - b else a - b - 1
  let e : Int := k - 52
  let N : Nat := if 0 ≤ e then num else num * 2 ^ (-e).toNat
  let D : Nat := if 0 ≤ e then den * 2 ^ e.toNat else den
  let q : Nat := N / D
  let r : Nat := N % D
  let m : Nat :=
    if 2 * r < D then q
    else if D < 2 * r then q + 1
    else if q % 2 = 0 then q else q + 1
  ⟨(m : Int), e⟩

def dyadicNeg (x : Dyadic) : Dyadic := ⟨-x.mant, x.exp⟩

/-- `timedelta.total_seconds()`: CPython divides the exact microsecond count
by `10**6` with integer true division — one correctly rounded binary64
division, symmetric in sign. -/
def pyTotalSeconds (dMicros : Int) : Dyadic :=
  if dMicros = 0 then ⟨0, 0⟩
  else if dMicros < 0 then dyadicNeg (roundPosRatToDouble (-dMicros).toNat 1000000)
  else roundPosRatToDouble dMicros.toNat 1000000

/-- One binary64 multiplication by 1000 (correctly rounded). -/
def pyMulThousand (x : Dyadic) : Dyadic :=
  if x.mant = 0 then ⟨0, 0⟩
  else
    let mag := x.mant.natAbs * 1000
    let r :=
      if 0 ≤ x.exp then roundPosRatToDouble (mag * 2 ^ x.exp.toNat) 1
      else roundPosRatToDouble mag (2 ^ (-x.exp).toNat)
    if x.mant < 0 then dyadicNeg r else r

/-- Python `int(x)` on a float value: truncation toward zero. -/
def pyTruncFloat (x : Dyadic) : Int :=
  if 0 ≤ x.exp then x.mant * 2 ^ x.exp.toNat
  else Int.tdiv x.mant (2 ^ (-x.exp).toNat)

/-- `int((now_utc - dt).total_seconds() * 1000)` (checker.py:54) exactly as
IEEE-754 binary64 arithmetic computes it.  This can undershoot the exact
whole-millisecond difference by one: a delta of 1001000 µs gives
`1.001 * 1000 = 1000.9999999999999`, truncated to 1000. -/
def pyDelayMs (dMicros : Int) : Int :=
  pyTruncFloat (pyMulThousand (pyTotalSeconds dMicros))

/-- `_calc_block_delay_ms` (checker.py:47), with the current instant
`nowMicros` passed explicitly in place of `datetime.now(timezone.utc)`. -/
def calc_block_delay_ms (nowMicros : Int) (block_time_str : Option Str) : Option Int :=
  match block_time_str with
  | none => none
  | some s =>
    if s.isEmpty then none
    else
      match parse_block_time s with
      | none => none
      | some dtMicros =>
        let diff_ms := pyDelayMs (nowMicros - dtMicros)
        if diff_ms < 0 then some 0 else some diff_ms

/-! ## JSON values and the HTTP world -/

-- The JSON values the probes traverse, as Python objects: `None`, strings,
-- and string-keyed dicts.  (Block heights arrive as JSON strings; numbers and
-- arrays never occur in the shapes the probes read and are not modelled.)
mutual
inductive PyVal where
  | vnone : PyVal
  | vstr : Str → PyVal
  | vdict : PyFields → PyVal
deriving DecidableEq, Repr

inductive PyFields where
  | fnil : PyFields
  | fcons : Str → PyVal → PyFields → PyFields
deriving DecidableEq, Repr
end

/-- Build a dict's field list from an association list. -/
def fieldsOf : List (Str × PyVal) → PyFields
  | [] => .fnil
  | (k, v) :: r => .fcons k v (fieldsOf r)

def PyFields.isNil : PyFields → Bool
  | .fnil => true
  | .fcons _ _ _ => false

/-- Python truthiness for the modelled values. -/
def PyVal.truthy : PyVal → Bool
  | .vnone => false
  | .vstr s => !s.isEmpty
  | .vdict fs => !fs.isNil

def dictLookup : PyFields → Str → Option PyVal
  | .fnil, _ => none
  | .fcons k v rest, key => if k = key then some v else dictLookup rest key

/-- Python `obj.get(key)`: returns `None` for a missing key, raises
`AttributeError` when `obj` is not a dict. -/
def PyVal.pyGet : PyVal → Str → Except Str PyVal
  | .vdict fs, k => .ok ((dictLookup fs k).getD .vnone)
  | .vstr _, _ => .error "AttributeError: str object has no attribute get".data
  | .vnone, _ => .error "AttributeError: NoneType object has no attribute get".data

/-- Python `x or ` on a value (`{}` written as the empty dict). -/
def orEmptyDict (v : PyVal) : PyVal := if v.truthy then v else .vdict .fnil

/-- Python `str(v)` as interpolated into f-strings.  Probe messages only ever
render strings; the dict case is unreachable in the claims. -/
def pyStr : PyVal → Str
  | .vnone => "None".data
  | .vstr s => s
  | .vdict _ => "<dict>".data

/-- `v != s` where `s` is a Python `str`: value inequality, true whenever the
types differ. -/
def pyNeStr (v : PyVal) (s : Str) : Bool :=
  match v with
  | .vstr t => t ≠ s
  | _ => true

deriving instance DecidableEq for Except

/-- An HTTP response: the status code and the outcome of `resp.json()`
(`Except.error m` models a JSON decode exception rendered as `m`). -/
structure HttpResponse where
  status : Nat
  body : Except Str PyVal
deriving DecidableEq

/-- The outcome of `httpx.get(url)`: a response, or a raised transport
exception rendered as a message. -/
inductive HttpOutcome where
  | resp : HttpResponse → HttpOutcome
  | exn : Str → HttpOutcome
deriving DecidableEq

/-- The network environment: what each URL returns for a GET during the
probe under consideration. -/
def World := Str → HttpOutcome

/-! ## `checker.py`: probes -/

/-- The uniform 5-tuple both probes return:
`(is_available, http_status_code, block_delay_ms, latest_block_height,
error_message)`.  The height slot carries the raw JSON value
(`vnone` for Python `None`). -/
structure CheckResult where
  is_available : Bool
  http_status : Option Nat
  block_delay_ms : Option Int
  block_height : PyVal
  error_message : Option Str
deriving DecidableEq, Repr

/-- `_normalize_error` (checker.py:195), identical to the classification in
the `except` arm of `check_rpc_endpoint` (checker.py:113–127): substring
patterns tested in fixed order, falling back to the message truncated to
400 characters. -/
def normalize_error (msg : Str) : Str :=
  if containsSub msg "handshake operation timed out".data then
    "TLS_HANDSHAKE_TIMEOUT".data
  else if containsSub msg "Name or service not known".data
      || containsSub msg "Temporary failure in name resolution".data then
    "DNS_RESOLUTION_FAILED".data
  else if containsSub msg "Connection refused".data then
    "CONNECTION_REFUSED".data
  else if containsSub (pyLower msg) "timed out".data then
    "REQUEST_TIMEOUT".data
  else
    "EXCEPTION: ".data ++ msg.take 400

def httpStatusMsg (st : Nat) : Str := "HTTP_STATUS_".data ++ natStr st

def invalidJsonMsg (e : Str) : Str := "INVALID_JSON: ".data ++ e

def chainIdMismatchMsg (expected : Str) (got : PyVal) : Str :=
  "CHAIN_ID_MISMATCH: expected=".data ++ expected ++ ", got=".data ++ pyStr got

/-- `if not block_time_str` / `_parse_block_time` applied to the raw JSON
value, propagating the `AttributeError` a truthy non-string would raise at
`ts.endswith("Z")`. -/
def calcDelayPy (nowMicros : Int) : PyVal → Except Str (Option Int)
  | .vnone => .ok none
  | .vstr s => .ok (calc_block_delay_ms nowMicros (some s))
  | .vdict .fnil => .ok none
  | .vdict (.fcons _ _ _) =>
    .error "AttributeError: dict object has no attribute endswith".data

/-- Python `expected_chain_id and <observed> and <observed> != expected`:
the chain-id mismatch guard shared by `check_rpc_endpoint` (checker.py:101)
and `_check_rest_block_latest` (checker.py:162). -/
def chainIdMismatch (expected : Option Str) (observed : PyVal) : Bool :=
  match expected with
  | none => false
  | some e => !e.isEmpty && observed.truthy && pyNeStr observed e

/-- The body of the outer `try` of `check_rpc_endpoint` (checker.py:80–111);
`Except.error m` models an exception escaping to the `except` arm. -/
def check_rpc_attempt (world : World) (nowMicros : Int) (base_url : Str)
    (expected_chain_id : Option Str) : Except Str CheckResult := do
  let url := pyRstripSlash base_url ++ "/status".data
  match world url with
  | .exn m => .error m
  | .resp resp =>
    let http_status := resp.status
    if http_status < 200 ∨ http_status ≥ 300 then
      return ⟨false, some http_status, none, .vnone, some (httpStatusMsg http_status)⟩
    else
      match resp.body with
      | .error e => return ⟨false, some http_status, none, .vnone, some (invalidJsonMsg e)⟩
      | .ok data => do
        let result := orEmptyDict (← data.pyGet "result".data)
        let node_info := orEmptyDict (← result.pyGet "node_info".data)
        let sync_info := orEmptyDict (← result.pyGet "sync_info".data)
        let network ← node_info.pyGet "network".data
        let latest_block_height ← sync_info.pyGet "latest_block_height".data
        let latest_block_time ← sync_info.pyGet "latest_block_time".data
        if chainIdMismatch expected_chain_id network then
          let err := chainIdMismatchMsg ((expected_chain_id).getD []) network
          let delay_ms ← calcDelayPy nowMicros latest_block_time
          return ⟨false, some http_status, delay_ms, latest_block_height, some err⟩
        else
          let delay_ms ← calcDelayPy nowMicros latest_block_time
          match delay_ms with
          | none =>
            return ⟨false, some http_status, none, latest_block_height,
              some "INVALID_BLOCK_TIME".data⟩
          | some d =>
            return ⟨true, some http_status, some d, latest_block_height, none⟩

/-- `check_rpc_endpoint` (checker.py:61): one GET to `{base_url}/status`;
any exception is classified by the patterns of checker.py:113–127. -/
def check_rpc_endpoint (world : World) (nowMicros : Int) (base_url : Str)
    (expected_chain_id : Option Str) : CheckResult :=
  match check_rpc_attempt world nowMicros base_url expected_chain_id with
  | .ok r => r
  | .error msg => ⟨false, none, none, .vnone, some (normalize_error msg)⟩

/-- `_check_rest_block_latest` (checker.py:130): GET `base_url + path`,
parse the Cosmos REST block shape.  `Except.error m` models an exception
propagating to the caller (`check_api_endpoint` catches it). -/
def check_rest_block_latest (world : World) (nowMicros : Int) (base_url path : Str)
    (expected_chain_id : Option Str) : Except Str CheckResult := do
  let url := pyRstripSlash base_url ++ path
  match world url with
  | .exn m => .error m
  | .resp resp =>
    let http_status := resp.status
    if http_status < 200 ∨ http_status ≥ 300 then
      return ⟨false, some http_status, none, .vnone, some (httpStatusMsg http_status)⟩
    else
      match resp.body with
      | .error e => return ⟨false, some http_status, none, .vnone, some (invalidJsonMsg e)⟩
      | .ok data => do
        let block := orEmptyDict (← data.pyGet "block".data)
        let header := orEmptyDict (← block.pyGet "header".data)
        let chain_id ← header.pyGet "chain_id".data
        let height ← header.pyGet "height".data
        let time_val ← header.pyGet "time".data
        if chainIdMismatch expected_chain_id chain_id then
          let err := chainIdMismatchMsg ((expected_chain_id).getD []) chain_id
          let delay_ms ← calcDelayPy nowMicros time_val
          return ⟨false, some http_status, delay_ms, height, some err⟩
        else
          let delay_ms ← calcDelayPy nowMicros time_val
          match delay_ms with
          | none =>
            return ⟨false, some http_status, none, height, some "INVALID_BLOCK_TIME".data⟩
          | some d =>
            return ⟨true, some http_status, some d, height, none⟩

def newRestPath : Str := "/cosmos/base/tendermint/v1beta1/blocks/latest".data

def oldRestPath : Str := "/blocks/latest".data

/-- Strategy 3 of `check_api_endpoint` (checker.py:230–238): bare GET of
`base_url.rstrip("/")`, liveness only. -/
def check_api_bare (world : World) (base_url : Str) : Except Str CheckResult :=
  match world (pyRstripSlash base_url) with
  | .exn m => .error m
  | .resp resp =>
    let http_status := resp.status
    if http_status < 200 ∨ http_status ≥ 300 then
      .ok ⟨false, some http_status, none, .vnone, some (httpStatusMsg http_status)⟩
    else
      .ok ⟨true, some http_status, none, .vnone, none⟩

/-- Python `a or b` on strings. -/
def pyOrStr (a b : Str) : Str := if a.isEmpty then b else a

def dnsTag : Str := "DNS_".data

def tlsTag : Str := "TLS_".data

def timeoutTag : Str := "REQUEST_TIMEOUT".data

/-- The error aggregation at checker.py:240–253: the first error starting
with `DNS_`, else the first starting with `TLS_`, else the first starting
with `REQUEST_TIMEOUT`, else `err1 or err2 or err3 or "UNKNOWN_ERROR"`. -/
def aggregateApiErrors (err1 err2 err3 : Str) : Str :=
  let errs := [err1, err2, err3]
  match errs.find? (fun e => pyStartsWith e dnsTag) with
  | some e => e
  | none =>
    match errs.find? (fun e => pyStartsWith e tlsTag) with
    | some e => e
    | none =>
      match errs.find? (fun e => pyStartsWith e timeoutTag) with
      | some e => e
      | none => pyOrStr err1 (pyOrStr err2 (pyOrStr err3 "UNKNOWN_ERROR".data))

/-- `check_api_endpoint` (checker.py:174): three strategies in strict order,
returning the first that completes without raising; if all three raise, the
classified errors are aggregated by `aggregateApiErrors`. -/
def check_api_endpoint (world : World) (nowMicros : Int) (base_url : Str)
    (expected_chain_id : Option Str) : CheckResult :=
  match check_rest_block_latest world nowMicros base_url newRestPath expected_chain_id with
  | .ok r => r
  | .error e1 =>
    let err1 := normalize_error e1
    match check_rest_block_latest world nowMicros base_url oldRestPath expected_chain_id with
    | .ok r => r
    | .error e2 =>
      let err2 := normalize_error e2
      match check_api_bare world base_url with
      | .ok r => r
      | .error e3 =>
        let err3 := normalize_error e3
        ⟨false, none, none, .vnone, some (aggregateApiErrors err1 err2 err3)⟩

/-! ## `worker/runner.py`: batch processing and persistence -/

/-- The columns of an `Endpoint` row the runner reads. -/
structure EndpointRow where
  id : Nat
  type : Str
  url : Str
deriving DecidableEq, Repr

/-- The columns of a `Network` row the runner reads (`chain_id` is a
non-nullable string column). -/
structure NetworkRow where
  chain_id : Str
deriving DecidableEq, Repr

/-- A `Check` row as built at runner.py:65–73.  `checked_at` is the
`now_utc` instant in microseconds. -/
structure CheckRow where
  endpoint_id : Nat
  is_available : Bool
  status_code : Option Nat
  block_delay_ms : Option Int
  last_block_height : PyVal
  error_message : Option Str
  checked_at : Int
deriving DecidableEq, Repr

/-- An `EndpointStatus` row: the same field shape as `Check`
(runner.py:83–99). -/
structure StatusRow where
  endpoint_id : Nat
  is_available : Bool
  status_code : Option Nat
  block_delay_ms : Option Int
  last_block_height : PyVal
  error_message : Option Str
  checked_at : Int
deriving DecidableEq, Repr

/-- The persisted tables the runner touches. -/
structure DB where
  checks : List CheckRow
  statuses : List StatusRow
deriving DecidableEq, Repr

/-- One element of the `rows` result set (runner.py:27–33) together with the
`now_utc` instant captured once for that endpoint at runner.py:43. -/
structure BatchItem where
  ep : EndpointRow
  net : NetworkRow
  nowUtc : Int
deriving Repr

def mkCheckRow (item : BatchItem) (r : CheckResult) : CheckRow :=
  ⟨item.ep.id, r.is_available, r.http_status, r.block_delay_ms, r.block_height,
    r.error_message, item.nowUtc⟩

def mkStatusRow (item : BatchItem) (r : CheckResult) : StatusRow :=
  ⟨item.ep.id, r.is_available, r.http_status, r.block_delay_ms, r.block_height,
    r.error_message, item.nowUtc⟩

/-- The upsert at runner.py:76–99: the first `EndpointStatus` row with this
endpoint id is overwritten in place; if none exists the new row is added. -/
def upsertStatus : List StatusRow → StatusRow → List StatusRow
  | [], row => [row]
  | s :: rest, row =>
    if s.endpoint_id = row.endpoint_id then row :: rest
    else s :: upsertStatus rest row

/-- `expected_chain_id = net.chain_id or None` (runner.py:42): an
empty-string `chain_id` column becomes `None`. -/
def expectedChainIdOf (net : NetworkRow) : Option Str :=
  if net.chain_id.isEmpty then none else some net.chain_id

/-- The probe dispatch at runner.py:45–63: `rpc` and `api` endpoints go to
their checkers; an unknown `type` goes to the API checker with no expected
chain id. -/
def dispatchProbe (world : World) (probeNow : Int) (ep : EndpointRow)
    (net : NetworkRow) : CheckResult :=
  if ep.type = "rpc".data then
    check_rpc_endpoint world probeNow ep.url (expectedChainIdOf net)
  else if ep.type = "api".data then
    check_api_endpoint world probeNow ep.url (expectedChainIdOf net)
  else
    check_api_endpoint world probeNow ep.url none

/-- One loop body of `process_batch` (runner.py:41–99) for one endpoint,
staging the `Check` insert and the `EndpointStatus` upsert.  The probe is a
parameter returning `Except`, reflecting that in Python any call in the loop
body may raise an uncaught exception, which `process_batch` does not catch. -/
def processEndpoint (probe : BatchItem → Except Str CheckResult) (db : DB)
    (item : BatchItem) : Except Str DB := do
  let r ← probe item
  let db1 : DB := ⟨db.checks ++ [mkCheckRow item r], db.statuses⟩
  return ⟨db1.checks, upsertStatus db1.statuses (mkStatusRow item r)⟩

/-- `process_batch` over the selected rows: endpoints are processed in order
with no per-endpoint exception handling, so the first raised exception
aborts the remaining endpoints and propagates (runner.py:41–113). -/
def processBatchRun (probe : BatchItem → Except Str CheckResult) :
    List BatchItem → DB → Except Str DB
  | [], db => .ok db
  | item :: rest, db => do
    let db1 ← processEndpoint probe db item
    processBatchRun probe rest db1

/-- The probe `process_batch` actually calls, which never raises: both
checkers catch every `Exception` internally. -/
def sourceProbe (world : World) (item : BatchItem) : Except Str CheckResult :=
  .ok (dispatchProbe world item.nowUtc item.ep item.net)

/-- One iteration of `main_loop` (runner.py:123–135): `db.commit()` persists
the staged rows on success; an exception escaping `process_batch` is caught
and the session is rolled back, discarding everything staged in that
iteration. -/
def mainLoopIteration (probe : BatchItem → Except Str CheckResult)
    (rows : List BatchItem) (db : DB) : DB :=
  match processBatchRun probe rows db with
  | .ok db2 => db2
  | .error _ => db

/-! ## Claims -/

/-- C6: `_normalize_error` maps every transport-exception message to exactly
one code, testing the patterns in the fixed precedence TLS handshake timeout,
then DNS resolution failure, then connection refused, then generic timeout,
then the fallback `EXCEPTION: <message truncated to 400 characters>`.  The
first conjunct in particular gives TLS_HANDSHAKE_TIMEOUT for any message that
also contains a generic "timed out" substring. -/
theorem normalize_error_precedence (msg : Str) :
    (containsSub msg "handshake operation timed out".data = true →
      normalize_error msg = "TLS_HANDSHAKE_TIMEOUT".data) ∧
    (containsSub msg "handshake operation timed out".data = false →
      (containsSub msg "Name or service not known".data = true ∨
        containsSub msg "Temporary failure in name resolution".data = true) →
      normalize_error msg = "DNS_RESOLUTION_FAILED".data) ∧
    (containsSub msg "handshake operation timed out".data = false →
      containsSub msg "Name or service not known".data = false →
      containsSub msg "Temporary failure in name resolution".data = false →
      containsSub msg "Connection refused".data = true →
      normalize_error msg = "CONNECTION_REFUSED".data) ∧
    (containsSub msg "handshake operation timed out".data = false →
      containsSub msg "Name or service not known".data = false →
      containsSub msg "Temporary failure in name resolution".data = false →
      containsSub msg "Connection refused".data = false →
      containsSub (pyLower msg) "timed out".data = true →
      normalize_error msg = "REQUEST_TIMEOUT".data) ∧
    (containsSub msg "handshake operation timed out".data = false →
      containsSub msg "Name or service not known".data = false →
      containsSub msg "Temporary failure in name resolution".data = false →
      containsSub msg "Connection refused".data = false →
      containsSub (pyLower msg) "timed out".data = false →
      normalize_error msg = "EXCEPTION: ".data ++ msg.take 400) := by
  unfold normalize_error
  refine ⟨?_, ?_, ?_, ?_, ?_⟩ <;> intros <;> simp_all

/-- C6 witness: a message carrying both the TLS-handshake pattern and the
generic "timed out" substring classifies as TLS_HANDSHAKE_TIMEOUT. -/
theorem normalize_error_precedence_witness :
    normalize_error "ssl handshake operation timed out".data =
      "TLS_HANDSHAKE_TIMEOUT".data ∧
    containsSub (pyLower "ssl handshake operation timed out".data)
      "timed out".data = true :=
  ⟨(normalize_error_precedence _).1 (by decide), by decide⟩

/-- C5 counterexample: with `now` 1001000 µs after the parsed instant, the
code computes `int(1.001 * 1000)` through binary64 arithmetic: the float
product evaluates to 1000.9999999999999 and truncates to 1000, not the exact
whole-millisecond difference 1001. -/
theorem calc_block_delay_not_exact_ms :
    parse_block_time "1970-01-01T00:00:00Z".data = some 0 ∧
    calc_block_delay_ms 1001000 (some "1970-01-01T00:00:00Z".data) =
      some 1000 ∧
    Int.tdiv (1001000 - 0) 1000 = 1001 := by
  decide

/-- C5 (amended): for every parseable block timestamp, `block_delay_ms` is
`int((now_utc - parsed).total_seconds() * 1000)` as IEEE-754 binary64
arithmetic computes it — the whole-millisecond difference up to double
rounding, which can undershoot the exact value by one millisecond — clamped
to zero from below, so every produced delay is non-negative; an absent
(`None` or empty) timestamp yields `None`, not zero. -/
theorem calc_block_delay_float_clamped :
    (∀ (now : Int) (s : Str) (dtMicros : Int),
      parse_block_time s = some dtMicros →
      calc_block_delay_ms now (some s) =
        some (max 0 (pyDelayMs (now - dtMicros)))) ∧
    (∀ (now : Int) (arg : Option Str) (d : Int),
      calc_block_delay_ms now arg = some d → 0 ≤ d) ∧
    (∀ now : Int, calc_block_delay_ms now none = none) ∧
    (∀ now : Int, calc_block_delay_ms now (some []) = none) := by
  refine ⟨?_, ?_, ?_, ?_⟩
  · intro now s dtM h
    have hne : ¬ s.isEmpty := by
      intro he
      simp [parse_block_time, he] at h
    rcases lt_or_ge (pyDelayMs (now - dtM)) 0 with hlt | hge
    · simp [calc_block_delay_ms, hne, h, hlt, max_eq_left hlt.le]
    · simp [calc_block_delay_ms, hne, h, not_lt.mpr hge, max_eq_right hge]
  · intro now arg d h
    match arg with
    | none => simp [calc_block_delay_ms] at h
    | some s =>
      by_cases he : s.isEmpty
      · simp [calc_block_delay_ms, he] at h
      · cases hp : parse_block_time s with
        | none => simp [calc_block_delay_ms, he, hp] at h
        | some dtM =>
          rcases lt_or_ge (pyDelayMs (now - dtM)) 0 with hlt | hge
          · simp [calc_block_delay_ms, he, hp, hlt] at h
            omega
          · simp [calc_block_delay_ms, he, hp, not_lt.mpr hge] at h
            omega
  · intro now
    rfl
  · intro now
    rfl

/-- C5 witness: a concrete timestamp five seconds in the past gives exactly
5000 ms (a float-exact delta); a delay read back from the function is
non-negative. -/
theorem calc_block_delay_float_clamped_witness :
    calc_block_delay_ms 1704164645000000 (some "2024-01-02T03:04:00Z".data) =
      some (max 0 (pyDelayMs (1704164645000000 - 1704164640000000))) ∧
    (0 : Int) ≤ 5000 :=
  ⟨calc_block_delay_float_clamped.1 1704164645000000
      "2024-01-02T03:04:00Z".data 1704164640000000 (by decide),
    calc_block_delay_float_clamped.2.1 1704164645000000
      (some "2024-01-02T03:04:00Z".data) 5000 (by decide)⟩

/-- A network environment for the API-probe scenarios: both REST block paths
answer HTTP 404, the bare GET answers HTTP 200. -/
def apiNotFoundWorld : World := fun u =>
  if u = "https://x".data ++ newRestPath then .resp ⟨404, .ok (.vdict .fnil)⟩
  else if u = "https://x".data ++ oldRestPath then .resp ⟨404, .ok (.vdict .fnil)⟩
  else if u = "https://x".data then .resp ⟨200, .ok (.vdict .fnil)⟩
  else .exn "unreachable".data

/-- C1 counterexample: with HTTP 404 on both REST block paths and HTTP 200
on the bare GET, `check_api_endpoint` does not return
`(true, 200, null, null, null)`: strategy 1 completes without throwing, so
its well-formed failure `(false, 404, null, null, HTTP_STATUS_404)` is
returned and the bare GET is never reached. -/
theorem check_api_404_claim_false :
    check_api_endpoint apiNotFoundWorld 0 "https://x".data none ≠
      ⟨true, some 200, none, .vnone, none⟩ ∧
    check_api_endpoint apiNotFoundWorld 0 "https://x".data none =
      ⟨false, some 404, none, .vnone, some "HTTP_STATUS_404".data⟩ := by
  decide

/-- C1 (amended): for an API endpoint whose first REST block path completes
with HTTP 404, `check_api_endpoint` returns
`(false, 404, null, null, "HTTP_STATUS_404")` from that first strategy;
the legacy path and the bare GET are never attempted, whatever they would
return. -/
theorem check_api_404_first_strategy (world : World) (now : Int) (base : Str)
    (expected : Option Str) (body : Except Str PyVal)
    (h : world (pyRstripSlash base ++ newRestPath) = .resp ⟨404, body⟩) :
    check_api_endpoint world now base expected =
      ⟨false, some 404, none, .vnone, some "HTTP_STATUS_404".data⟩ := by
  have hmsg : httpStatusMsg 404 = "HTTP_STATUS_404".data := by decide
  simp [check_api_endpoint, check_rest_block_latest, h, hmsg, pure, Except.pure]

/-- C1 witness: the amended behaviour at the concrete 404/404/200 world. -/
theorem check_api_404_first_strategy_witness :
    check_api_endpoint apiNotFoundWorld 0 "https://x".data none =
      ⟨false, some 404, none, .vnone, some "HTTP_STATUS_404".data⟩ :=
  check_api_404_first_strategy apiNotFoundWorld 0 "https://x".data none
    (.ok (.vdict .fnil)) (by decide)

/-- C3: `check_api_endpoint` tries its three strategies in strict order and
returns the result of the first one that completes without throwing — even a
result reporting unavailable — and the later strategies are then irrelevant
(the world may behave arbitrarily at their URLs). -/
theorem check_api_strict_order (world : World) (now : Int) (base : Str)
    (expected : Option Str) :
    (∀ r, check_rest_block_latest world now base newRestPath expected = .ok r →
      check_api_endpoint world now base expected = r) ∧
    (∀ e1 r, check_rest_block_latest world now base newRestPath expected = .error e1 →
      check_rest_block_latest world now base oldRestPath expected = .ok r →
      check_api_endpoint world now base expected = r) ∧
    (∀ e1 e2 r, check_rest_block_latest world now base newRestPath expected = .error e1 →
      check_rest_block_latest world now base oldRestPath expected = .error e2 →
      check_api_bare world base = .ok r →
      check_api_endpoint world now base expected = r) := by
  refine ⟨?_, ?_, ?_⟩ <;> intros <;> simp_all [check_api_endpoint]

/-- C3 witness: strategy 1's well-formed 404 failure is returned unchanged
even though strategy 3 would have reported available. -/
theorem check_api_strict_order_witness :
    check_api_endpoint apiNotFoundWorld 7 "https://x".data none =
      ⟨false, some 404, none, .vnone, some "HTTP_STATUS_404".data⟩ :=
  (check_api_strict_order apiNotFoundWorld 7 "https://x".data none).1
    ⟨false, some 404, none, .vnone, some "HTTP_STATUS_404".data⟩ (by decide)

/-- No classifier output is the empty string. -/
theorem normalize_error_nonempty (m : Str) : (normalize_error m).isEmpty = false := by
  unfold normalize_error
  repeat' split
  all_goals rfl

/-- The aggregation rule as the spec words it: the single most informative
error under the precedence DNS > TLS > REQUEST_TIMEOUT > first non-null
error encountered. -/
def specAggregate (errs : List Str) : Option Str :=
  match errs.find? (fun e => pyStartsWith e dnsTag) with
  | some e => some e
  | none =>
    match errs.find? (fun e => pyStartsWith e tlsTag) with
    | some e => some e
    | none =>
      match errs.find? (fun e => pyStartsWith e timeoutTag) with
      | some e => some e
      | none => errs.find? (fun e => !e.isEmpty)

/-- The code's aggregation (priority loops plus `err1 or err2 or err3 or
"UNKNOWN_ERROR"`) refines the spec's rule whenever the first error is
non-empty, which classifier outputs always are. -/
theorem aggregateApiErrors_refines (e1 e2 e3 : Str) (h1 : e1.isEmpty = false) :
    some (aggregateApiErrors e1 e2 e3) = specAggregate [e1, e2, e3] := by
  unfold aggregateApiErrors specAggregate
  cases hd : [e1, e2, e3].find? (fun e => pyStartsWith e dnsTag) with
  | some e => simp [hd]
  | none =>
    cases ht : [e1, e2, e3].find? (fun e => pyStartsWith e tlsTag) with
    | some e => simp [hd, ht]
    | none =>
      cases hr : [e1, e2, e3].find? (fun e => pyStartsWith e timeoutTag) with
      | some e => simp [hd, ht, hr]
      | none =>
        simp only [hd, ht, hr]
        simp [List.find?, pyOrStr, h1]

/-- C7: when all three API strategies throw transport exceptions, the probe
reports unavailable with no HTTP status and no freshness data, and the single
reported error is the spec's aggregate of the three classified errors under
the precedence DNS > TLS > REQUEST_TIMEOUT > first non-null error, regardless
of which attempt produced which error. -/
theorem check_api_all_throw_aggregate (world : World) (now : Int) (base : Str)
    (expected : Option Str) (m1 m2 m3 : Str)
    (h1 : world (pyRstripSlash base ++ newRestPath) = .exn m1)
    (h2 : world (pyRstripSlash base ++ oldRestPath) = .exn m2)
    (h3 : world (pyRstripSlash base) = .exn m3) :
    check_api_endpoint world now base expected =
      ⟨false, none, none, .vnone,
        specAggregate [normalize_error m1, normalize_error m2, normalize_error m3]⟩ := by
  have hagg := aggregateApiErrors_refines (normalize_error m1) (normalize_error m2)
    (normalize_error m3) (normalize_error_nonempty m1)
  simp [check_api_endpoint, check_rest_block_latest, check_api_bare, h1, h2, h3, ← hagg]

/-- An API-probe world where every strategy throws: DNS failure on the new
REST path, TLS handshake timeout on the legacy path, a generic exception on
the bare GET. -/
def apiAllThrowWorld : World := fun u =>
  if u = "https://x".data ++ newRestPath then
    .exn "Temporary failure in name resolution".data
  else if u = "https://x".data ++ oldRestPath then
    .exn "ssl handshake operation timed out".data
  else .exn "boom".data

/-- C7 witness: DNS, TLS and generic errors in attempt order aggregate to the
DNS failure. -/
theorem check_api_all_throw_aggregate_witness :
    check_api_endpoint apiAllThrowWorld 0 "https://x".data none =
      ⟨false, none, none, .vnone, some "DNS_RESOLUTION_FAILED".data⟩ :=
  (check_api_all_throw_aggregate apiAllThrowWorld 0 "https://x".data none
    "Temporary failure in name resolution".data
    "ssl handshake operation timed out".data
    "boom".data (by decide) (by decide) (by decide)).trans (by decide)

/-- The Tendermint `/status` response body shape the RPC probe reads:
`result.node_info.network` and `result.sync_info.{latest_block_height,
latest_block_time}`. -/
def rpcStatusBody (network heightv timev : PyVal) : PyVal :=
  .vdict (fieldsOf [
    ("result".data, .vdict (fieldsOf [
      ("node_info".data, .vdict (fieldsOf [("network".data, network)])),
      ("sync_info".data, .vdict (fieldsOf [
        ("latest_block_height".data, heightv),
        ("latest_block_time".data, timev)]))]))])

/-- The Cosmos REST block response body shape strategies 1 and 2 read:
`block.header.{chain_id, height, time}`. -/
def restBlockBody (chainv heightv timev : PyVal) : PyVal :=
  .vdict (fieldsOf [
    ("block".data, .vdict (fieldsOf [
      ("header".data, .vdict (fieldsOf [
        ("chain_id".data, chainv),
        ("height".data, heightv),
        ("time".data, timev)]))]))])

/-- C8: a 2xx response whose observed chain id `y` differs from the supplied
non-empty expected chain id `x` yields unavailable with
`CHAIN_ID_MISMATCH: expected=x, got=y`, while `block_delay_ms` and
`block_height` are still populated from the response — both for the RPC
probe and for the REST block parsing shared by API strategies 1 and 2. -/
theorem chain_id_mismatch_keeps_freshness
    (world world2 : World) (now : Int) (base : Str) (x y : Str)
    (heightv timev : PyVal) (st : Nat) (d : Option Int) (path : Str)
    (hx : x.isEmpty = false) (hy : y.isEmpty = false) (hxy : ¬ y = x)
    (hst1 : 200 ≤ st) (hst2 : st < 300)
    (hd : calcDelayPy now timev = .ok d)
    (h1 : world (pyRstripSlash base ++ "/status".data) =
      .resp ⟨st, .ok (rpcStatusBody (.vstr y) heightv timev)⟩)
    (h2 : world2 (pyRstripSlash base ++ path) =
      .resp ⟨st, .ok (restBlockBody (.vstr y) heightv timev)⟩) :
    check_rpc_endpoint world now base (some x) =
      ⟨false, some st, d, heightv, some (chainIdMismatchMsg x (.vstr y))⟩ ∧
    check_rest_block_latest world2 now base path (some x) =
      .ok ⟨false, some st, d, heightv, some (chainIdMismatchMsg x (.vstr y))⟩ := by
  have hcond : ¬ (st < 200 ∨ st ≥ 300) := by omega
  have hmis : chainIdMismatch (some x) (.vstr y) = true := by
    simp [chainIdMismatch, PyVal.truthy, pyNeStr, hx, hy, hxy]
  constructor
  · simp [check_rpc_endpoint, check_rpc_attempt, h1, hcond, hmis, hd,
      rpcStatusBody, fieldsOf, orEmptyDict, PyVal.truthy, PyVal.pyGet, dictLookup,
      PyFields.isNil, pure, Except.pure, bind, Except.bind, Functor.map, Except.map]
  · simp [check_rest_block_latest, h2, hcond, hmis, hd,
      restBlockBody, fieldsOf, orEmptyDict, PyVal.truthy, PyVal.pyGet, dictLookup,
      PyFields.isNil, pure, Except.pure, bind, Except.bind, Functor.map, Except.map]

def mismatchRpcWorld : World := fun u =>
  if u = "https://x/status".data then
    .resp ⟨200, .ok (rpcStatusBody (.vstr "cosmoshub-4".data) (.vstr "100".data)
      (.vstr "2024-01-02T03:04:00Z".data))⟩
  else .exn "unreachable".data

def mismatchRestWorld : World := fun u =>
  if u = ("https://x".data ++ newRestPath) then
    .resp ⟨200, .ok (restBlockBody (.vstr "cosmoshub-4".data) (.vstr "100".data)
      (.vstr "2024-01-02T03:04:00Z".data))⟩
  else .exn "unreachable".data

/-- C8 witness: expected `other`, observed `cosmoshub-4`, a block timestamp
five seconds old: both probes report the mismatch yet still carry
`block_delay_ms = 5000` and the height. -/
theorem chain_id_mismatch_keeps_freshness_witness :
    check_rpc_endpoint mismatchRpcWorld 1704164645000000 "https://x".data
      (some "other".data) =
      ⟨false, some 200, some 5000, .vstr "100".data,
        some (chainIdMismatchMsg "other".data (.vstr "cosmoshub-4".data))⟩ ∧
    check_rest_block_latest mismatchRestWorld 1704164645000000 "https://x".data
      newRestPath (some "other".data) =
      .ok ⟨false, some 200, some 5000, .vstr "100".data,
        some (chainIdMismatchMsg "other".data (.vstr "cosmoshub-4".data))⟩ :=
  chain_id_mismatch_keeps_freshness mismatchRpcWorld mismatchRestWorld
    1704164645000000 "https://x".data "other".data "cosmoshub-4".data
    (.vstr "100".data) (.vstr "2024-01-02T03:04:00Z".data) 200 (some 5000)
    newRestPath (by decide) (by decide) (by decide) (by decide) (by decide)
    (by decide) (by decide) (by decide)

/-- C10: CHAIN_ID_MISMATCH requires both sides present and non-empty:
the runner turns an empty-string `chain_id` column into `None` before
probing; the shared guard fires only for a non-empty expected id and a
truthy observed id; and a response that omits its chain id (`None` observed)
never mismatches — the probe proceeds to delay computation and, with a
parseable block time, reports available, for the RPC probe and the shared
REST parsing alike. -/
theorem chain_id_mismatch_requires_both
    (world world2 : World) (now : Int) (base : Str) (x : Str)
    (heightv timev : PyVal) (st : Nat) (dms : Int) (path : Str)
    (hst1 : 200 ≤ st) (hst2 : st < 300)
    (hd : calcDelayPy now timev = .ok (some dms))
    (h1 : world (pyRstripSlash base ++ "/status".data) =
      .resp ⟨st, .ok (rpcStatusBody .vnone heightv timev)⟩)
    (h2 : world2 (pyRstripSlash base ++ path) =
      .resp ⟨st, .ok (restBlockBody .vnone heightv timev)⟩) :
    (∀ net : NetworkRow, net.chain_id = [] → expectedChainIdOf net = none) ∧
    (∀ (exp : Option Str) (obs : PyVal), chainIdMismatch exp obs = true →
      ∃ e, exp = some e ∧ e ≠ [] ∧ obs.truthy = true ∧ pyNeStr obs e = true) ∧
    (∀ obs : PyVal, chainIdMismatch none obs = false) ∧
    check_rpc_endpoint world now base (some x) =
      ⟨true, some st, some dms, heightv, none⟩ ∧
    check_rest_block_latest world2 now base path (some x) =
      .ok ⟨true, some st, some dms, heightv, none⟩ := by
  have hcond : ¬ (st < 200 ∨ st ≥ 300) := by omega
  have hmis : chainIdMismatch (some x) PyVal.vnone = false := by
    simp [chainIdMismatch, PyVal.truthy]
  refine ⟨?_, ?_, ?_, ?_, ?_⟩
  · intro net h
    simp [expectedChainIdOf, h]
  · intro exp obs h
    match exp with
    | none => simp [chainIdMismatch] at h
    | some e =>
      simp [chainIdMismatch] at h
      exact ⟨e, rfl, h.1.1, h.1.2, h.2⟩
  · intro obs
    rfl
  · simp [check_rpc_endpoint, check_rpc_attempt, h1, hcond, hmis, hd,
      rpcStatusBody, fieldsOf, orEmptyDict, PyVal.truthy, PyVal.pyGet, dictLookup,
      PyFields.isNil, pure, Except.pure, bind, Except.bind, Functor.map, Except.map]
  · simp [check_rest_block_latest, h2, hcond, hmis, hd,
      restBlockBody, fieldsOf, orEmptyDict, PyVal.truthy, PyVal.pyGet, dictLookup,
      PyFields.isNil, pure, Except.pure, bind, Except.bind, Functor.map, Except.map]

def noChainIdRpcWorld : World := fun u =>
  if u = "https://x/status".data then
    .resp ⟨200, .ok (rpcStatusBody .vnone (.vstr "100".data)
      (.vstr "2024-01-02T03:04:00Z".data))⟩
  else .exn "unreachable".data

def noChainIdRestWorld : World := fun u =>
  if u = ("https://x".data ++ newRestPath) then
    .resp ⟨200, .ok (restBlockBody .vnone (.vstr "100".data)
      (.vstr "2024-01-02T03:04:00Z".data))⟩
  else .exn "unreachable".data

/-- C10 witness: with the observed chain id absent and an expected id
supplied, both probes report available with freshness data, and the runner
maps an empty `chain_id` column to `None`. -/
theorem chain_id_mismatch_requires_both_witness :
    expectedChainIdOf ⟨[]⟩ = none ∧
    check_rpc_endpoint noChainIdRpcWorld 1704164645000000 "https://x".data
      (some "other".data) =
      ⟨true, some 200, some 5000, .vstr "100".data, none⟩ := by
  have h := chain_id_mismatch_requires_both noChainIdRpcWorld noChainIdRestWorld
    1704164645000000 "https://x".data "other".data (.vstr "100".data)
    (.vstr "2024-01-02T03:04:00Z".data) 200 5000 newRestPath
    (by decide) (by decide) (by decide) (by decide) (by decide)
  exact ⟨h.1 ⟨[]⟩ rfl, h.2.2.2.1⟩

/-- `split(sep, 1)` finds the first occurrence: splitting `a ++ c :: b` at
`c` when `c` does not occur in `a` yields `(a, b)`. -/
theorem splitFirstChar_append_cons (c : Char) (a b : Str) (h : c ∉ a) :
    splitFirstChar c (a ++ c :: b) = some (a, b) := by
  induction a with
  | nil => simp [splitFirstChar]
  | cons x xs ih =>
    simp only [List.mem_cons, not_or] at h
    have hx : ¬ x = c := fun hh => h.1 hh.symm
    simp [splitFirstChar, hx, ih h.2]

/-- Appending the Z marker is the same as appending an explicit zero UTC
offset. -/
theorem pbt_z_marker (s : Str) :
    parse_block_time (s ++ ['Z']) = parse_block_time (s ++ "+00:00".data) := by
  have hpre : pbtPreprocess (s ++ ['Z']) = pbtPreprocess (s ++ "+00:00".data) := by
    unfold pbtPreprocess endsWithChar
    have hz : (s ++ ['Z']).getLast? = some 'Z' := List.getLast?_concat _
    have h0 : (s ++ "+00:00".data).getLast? = some '0' := by
      show (s ++ ("+00:0".data ++ ['0'])).getLast? = some '0'
      rw [← List.append_assoc]
      exact List.getLast?_concat _
    rw [hz, h0, List.dropLast_concat]
    simp
  have h1 : (s ++ ['Z']).isEmpty = false := by simp
  have h2 : (s ++ "+00:00".data).isEmpty = false := by simp
  unfold parse_block_time
  rw [hpre, h1, h2]

/-- The preprocessing of a Z-terminated timestamp with a fractional part:
the fraction is cut to its first 6 characters and the Z becomes `+00:00`. -/
theorem pbt_preprocess_frac (before fr : Str) (hb : '.' ∉ before)
    (hfr : '+' ∉ fr) :
    pbtPreprocess ((before ++ '.' :: fr) ++ ['Z']) =
      before ++ '.' :: fr.take 6 ++ '+' :: "00:00".data := by
  unfold pbtPreprocess endsWithChar
  rw [List.getLast?_concat, List.dropLast_concat]
  simp only [decide_eq_true_eq, if_pos rfl, if_true]
  rw [List.append_assoc, List.cons_append,
    splitFirstChar_append_cons '.' before (fr ++ ['+', '0', '0', ':', '0', '0']) hb]
  simp only [splitFirstChar_append_cons '+' fr (['0', '0', ':', '0', '0']) hfr]

/-- C4: the timestamp parser (i) treats a trailing `Z` exactly as an explicit
`+00:00` UTC offset; (ii) truncates — rather than rounds — a fractional part
to its first 6 characters, so a 7–9-digit fraction parses identically to its
6-digit prefix; (iii) treats a parsed timestamp carrying no offset as already
UTC, returning the calendar fields read as a UTC instant; (iv) returns the
failure signal `none` (surfaced as INVALID_BLOCK_TIME by the probes) whenever
the preprocessed text does not parse — by construction it never throws, and
`_calc_block_delay_ms` maps the failure to `none` as well. -/
theorem parse_block_time_contract :
    (∀ s : Str, parse_block_time (s ++ ['Z']) =
      parse_block_time (s ++ "+00:00".data)) ∧
    (∀ before frac : Str, '.' ∉ before → '+' ∉ frac →
      parse_block_time ((before ++ '.' :: frac) ++ ['Z']) =
        parse_block_time ((before ++ '.' :: frac.take 6) ++ ['Z'])) ∧
    (∀ (s : Str) (dt : PyDatetime), s ≠ [] →
      fromisoformat (pbtPreprocess s) = some dt → dt.tzOffsetMinutes = none →
      parse_block_time s = some (fieldsUtcMicros dt.year dt.month dt.day
        dt.hour dt.minute dt.second dt.microsecond)) ∧
    (∀ s : Str, fromisoformat (pbtPreprocess s) = none →
      parse_block_time s = none) ∧
    (∀ (now : Int) (s : Str), parse_block_time s = none →
      calc_block_delay_ms now (some s) = none) := by
  refine ⟨pbt_z_marker, ?_, ?_, ?_, ?_⟩
  · intro before frac hb hf
    have hf6 : '+' ∉ frac.take 6 := fun hmem => hf (List.mem_of_mem_take hmem)
    have hL := pbt_preprocess_frac before frac hb hf
    have hR := pbt_preprocess_frac before (frac.take 6) hb hf6
    rw [List.take_take] at hR
    simp only [min_self] at hR
    unfold parse_block_time
    have h1 : ((before ++ '.' :: frac) ++ ['Z']).isEmpty = false := by simp
    have h2 : ((before ++ '.' :: frac.take 6) ++ ['Z']).isEmpty = false := by simp
    rw [h1, h2, hL, hR]
  · intro s dt hs hp hoff
    have he : s.isEmpty = false := by
      cases s with
      | nil => exact absurd rfl hs
      | cons a l => rfl
    unfold parse_block_time
    rw [he, hp]
    simp [PyDatetime.toUtcMicros, hoff]
  · intro s hp
    by_cases he : s.isEmpty
    · simp [parse_block_time, he]
    · simp [parse_block_time, he, hp]
  · intro now s hp
    by_cases he : s.isEmpty
    · simp [calc_block_delay_ms, he]
    · simp [calc_block_delay_ms, he, hp]

/-- C4 witness: a 9-digit fraction parses to the same instant as its 6-digit
truncation; a naive timestamp is taken as UTC; garbage parses to `none` and
yields a `none` delay. -/
theorem parse_block_time_contract_witness :
    parse_block_time "2024-01-02T03:04:05.123456789Z".data =
      parse_block_time "2024-01-02T03:04:05.123456Z".data ∧
    parse_block_time "2024-01-02T03:04:05".data = some 1704164645000000 ∧
    calc_block_delay_ms 0 (some "garbage".data) = none := by
  refine ⟨?_, ?_, ?_⟩
  · have h := parse_block_time_contract.2.1 "2024-01-02T03:04:05".data
      "123456789".data (by decide) (by decide)
    calc parse_block_time "2024-01-02T03:04:05.123456789Z".data
        = parse_block_time (("2024-01-02T03:04:05".data ++
            '.' :: "123456789".data) ++ ['Z']) := rfl
      _ = parse_block_time (("2024-01-02T03:04:05".data ++
            '.' :: ("123456789".data).take 6) ++ ['Z']) := h
      _ = parse_block_time "2024-01-02T03:04:05.123456Z".data := rfl
  · exact parse_block_time_contract.2.2.1 "2024-01-02T03:04:05".data
      ⟨2024, 1, 2, 3, 4, 5, 0, none⟩ (by decide) (by decide) rfl
  · exact parse_block_time_contract.2.2.2.2 0 "garbage".data (by decide)

/-- A probe that raises on endpoint id 1 and succeeds elsewhere, modelling
one endpoint whose processing raises an uncaught exception. -/
def failingProbe : BatchItem → Except Str CheckResult := fun item =>
  if item.ep.id = 1 then .error "boom".data
  else .ok ⟨true, some 200, none, .vnone, none⟩

def batchItem1 : BatchItem := ⟨⟨1, "rpc".data, "u1".data⟩, ⟨"c".data⟩, 10⟩

def batchItem2 : BatchItem := ⟨⟨2, "rpc".data, "u2".data⟩, ⟨"c".data⟩, 10⟩

/-- C2 counterexample: in a batch of two enabled endpoints where processing
the first raises an uncaught exception, no Check or EndpointStatus row is
persisted for the other endpoint — whether the failing endpoint comes first
(the second is never probed) or second (the first endpoint's staged rows are
discarded by the rollback in `main_loop`). -/
theorem process_batch_isolation_false :
    mainLoopIteration failingProbe [batchItem1, batchItem2] ⟨[], []⟩ = ⟨[], []⟩ ∧
    mainLoopIteration failingProbe [batchItem2, batchItem1] ⟨[], []⟩ = ⟨[], []⟩ ∧
    ¬ ∃ c ∈ (mainLoopIteration failingProbe [batchItem1, batchItem2]
        ⟨[], []⟩).checks, c.endpoint_id = 2 := by
  decide

/-- Processing stops at the first endpoint whose processing raises:
the raised error propagates out of `process_batch`. -/
theorem processBatchRun_error_of_mem
    (probe : BatchItem → Except Str CheckResult) (item : BatchItem) (m : Str)
    (hitem : probe item = .error m) :
    ∀ (pre post : List BatchItem) (db : DB),
      (∀ i ∈ pre, ∃ r, probe i = .ok r) →
      processBatchRun probe (pre ++ item :: post) db = .error m := by
  intro pre
  induction pre with
  | nil =>
    intro post db _
    simp [processBatchRun, processEndpoint, hitem, bind, Except.bind]
  | cons x xs ih =>
    intro post db hok
    obtain ⟨r, hr⟩ := hok x (List.mem_cons_self x xs)
    simp only [List.cons_append, processBatchRun, processEndpoint, hr, bind,
      Except.bind, pure, Except.pure]
    exact ih post _ (fun i hi => hok i (List.mem_cons_of_mem x hi))

/-- C2 (amended): an uncaught exception while processing one endpoint aborts
the whole iteration: endpoints after the failing one are never probed, the
exception propagates out of `process_batch`, and `main_loop` catches it and
rolls the session back, so no Check or EndpointStatus row is persisted for
any endpoint of that batch; the committed state is exactly what it was
before the iteration. -/
theorem process_batch_abort_on_exception
    (probe : BatchItem → Except Str CheckResult) (db : DB) :
    (∀ (rows : List BatchItem) (e : Str),
      processBatchRun probe rows db = .error e →
      mainLoopIteration probe rows db = db) ∧
    (∀ (pre post : List BatchItem) (item : BatchItem) (m : Str),
      probe item = .error m →
      (∀ i ∈ pre, ∃ r, probe i = .ok r) →
      mainLoopIteration probe (pre ++ item :: post) db = db) := by
  constructor
  · intro rows e h
    simp [mainLoopIteration, h]
  · intro pre post item m hitem hok
    have h := processBatchRun_error_of_mem probe item m hitem pre post db hok
    simp [mainLoopIteration, h]

/-- C2 witness: the amended abort behaviour at the concrete two-endpoint
batch with the failing endpoint second. -/
theorem process_batch_abort_on_exception_witness :
    mainLoopIteration failingProbe [batchItem2, batchItem1] ⟨[], []⟩ =
      (⟨[], []⟩ : DB) :=
  (process_batch_abort_on_exception failingProbe ⟨[], []⟩).2 [batchItem2] []
    batchItem1 "boom".data (by decide)
    (by
      intro i hi
      refine ⟨⟨true, some 200, none, .vnone, none⟩, ?_⟩
      simp only [List.mem_singleton] at hi
      rw [hi]
      decide)

/-- Membership after an upsert: a row of the result is the upserted row or
was already present. -/
theorem upsertStatus_mem_or (sts : List StatusRow) (row x : StatusRow)
    (h : x ∈ upsertStatus sts row) : x = row ∨ x ∈ sts := by
  induction sts with
  | nil => simpa [upsertStatus] using h
  | cons s rest ih =>
    by_cases he : s.endpoint_id = row.endpoint_id
    · simp only [upsertStatus, if_pos he] at h
      rcases List.mem_cons.mp h with h1 | h1
      · exact Or.inl h1
      · exact Or.inr (List.mem_cons_of_mem s h1)
    · simp only [upsertStatus, if_neg he] at h
      rcases List.mem_cons.mp h with h1 | h1
      · exact Or.inr (by simp [h1])
      · rcases ih h1 with h2 | h2
        · exact Or.inl h2
        · exact Or.inr (List.mem_cons_of_mem s h2)

/-- The upserted row is present after the upsert. -/
theorem upsertStatus_self_mem (sts : List StatusRow) (row : StatusRow) :
    row ∈ upsertStatus sts row := by
  induction sts with
  | nil => simp [upsertStatus]
  | cons s rest ih =>
    by_cases he : s.endpoint_id = row.endpoint_id
    · simp [upsertStatus, he]
    · simp only [upsertStatus, if_neg he]
      exact List.mem_cons_of_mem s ih

/-- Rows for other endpoint ids are untouched by an upsert. -/
theorem upsertStatus_keeps_other (sts : List StatusRow) (row x : StatusRow)
    (hx : x ∈ sts) (hne : x.endpoint_id ≠ row.endpoint_id) :
    x ∈ upsertStatus sts row := by
  induction sts with
  | nil => cases hx
  | cons s rest ih =>
    by_cases he : s.endpoint_id = row.endpoint_id
    · rcases List.mem_cons.mp hx with h | h
      · subst h
        exact absurd he hne
      · simp only [upsertStatus, if_pos he]
        exact List.mem_cons_of_mem row h
    · rcases List.mem_cons.mp hx with h | h
      · simp [upsertStatus, he, h]
      · simp only [upsertStatus, if_neg he]
        exact List.mem_cons_of_mem s (ih h)

/-- Upserting preserves the one-row-per-endpoint-id invariant. -/
theorem upsertStatus_nodup (sts : List StatusRow) (row : StatusRow)
    (h : (sts.map (fun s => s.endpoint_id)).Nodup) :
    ((upsertStatus sts row).map (fun s => s.endpoint_id)).Nodup := by
  induction sts with
  | nil => simp [upsertStatus]
  | cons s rest ih =>
    simp only [List.map_cons, List.nodup_cons] at h
    by_cases he : s.endpoint_id = row.endpoint_id
    · simp only [upsertStatus, if_pos he, List.map_cons, List.nodup_cons]
      exact ⟨he ▸ h.1, h.2⟩
    · simp only [upsertStatus, if_neg he, List.map_cons, List.nodup_cons]
      refine ⟨?_, ih h.2⟩
      intro hmem
      rcases List.mem_map.mp hmem with ⟨x, hx, hxid⟩
      rcases upsertStatus_mem_or rest row x hx with h1 | h1
      · subst h1
        exact he hxid.symm
      · exact h.1 (List.mem_map.mpr ⟨x, h1, hxid⟩)

/-- With unique endpoint ids, the only row carrying the upserted id after an
upsert is the upserted row itself. -/
theorem upsertStatus_unique_id (sts : List StatusRow) (row x : StatusRow)
    (hnd : (sts.map (fun s => s.endpoint_id)).Nodup)
    (hx : x ∈ upsertStatus sts row) (hid : x.endpoint_id = row.endpoint_id) :
    x = row := by
  induction sts with
  | nil => simpa [upsertStatus] using hx
  | cons s rest ih =>
    simp only [List.map_cons, List.nodup_cons] at hnd
    by_cases he : s.endpoint_id = row.endpoint_id
    · simp only [upsertStatus, if_pos he] at hx
      rcases List.mem_cons.mp hx with h | h
      · exact h
      · exact absurd (List.mem_map.mpr ⟨x, h, by rw [hid, ← he]⟩) hnd.1
    · simp only [upsertStatus, if_neg he] at hx
      rcases List.mem_cons.mp hx with h | h
      · exact absurd (by rw [← h, hid]) he
      · exact ih hnd.2 h

/-- With unique endpoint ids, `query(...).first()` on a member row finds
exactly that row. -/
theorem find?_eq_of_nodup (sts : List StatusRow) (s0 : StatusRow)
    (hnd : (sts.map (fun s => s.endpoint_id)).Nodup) (hmem : s0 ∈ sts) :
    sts.find? (fun s => s.endpoint_id == s0.endpoint_id) = some s0 := by
  induction sts with
  | nil => cases hmem
  | cons t rest ih =>
    simp only [List.map_cons, List.nodup_cons] at hnd
    rcases List.mem_cons.mp hmem with h | h
    · subst h
      simp [List.find?]
    · have hne : (t.endpoint_id == s0.endpoint_id) = false := by
        simp only [beq_eq_false_iff_ne, ne_eq]
        intro hh
        exact hnd.1 (List.mem_map.mpr ⟨s0, h, hh.symm⟩)
      rw [List.find?]
      rw [hne]
      exact ih hnd.2 h

/-- Unfolding one successful endpoint-processing step. -/
theorem processEndpoint_ok (probe : BatchItem → Except Str CheckResult)
    (db : DB) (item : BatchItem) (db1 : DB)
    (h : processEndpoint probe db item = .ok db1) :
    ∃ r, probe item = .ok r ∧
      db1 = ⟨db.checks ++ [mkCheckRow item r],
        upsertStatus db.statuses (mkStatusRow item r)⟩ := by
  cases hp : probe item with
  | error e => simp [processEndpoint, hp, bind, Except.bind] at h
  | ok r =>
    refine ⟨r, rfl, ?_⟩
    simp only [processEndpoint, hp, bind, Except.bind, pure, Except.pure,
      Except.ok.injEq] at h
    exact h.symm

/-- At most one `EndpointStatus` row per endpoint id. -/
def statusUnique (db : DB) : Prop :=
  (db.statuses.map (fun s => s.endpoint_id)).Nodup

/-- Every `EndpointStatus` row is at least as recent as every `Check` row of
its endpoint. -/
def statusFresh (db : DB) : Prop :=
  ∀ s ∈ db.statuses, ∀ c ∈ db.checks,
    c.endpoint_id = s.endpoint_id → c.checked_at ≤ s.checked_at

/-- The invariants `process_batch` maintains over a successful run. -/
theorem processBatchRun_invariants (probe : BatchItem → Except Str CheckResult) :
    ∀ (rows : List BatchItem) (db db' : DB),
      processBatchRun probe rows db = .ok db' →
      statusUnique db →
      statusFresh db →
      (rows.map (fun i => i.ep.id)).Nodup →
      (∀ item ∈ rows, ∀ c ∈ db.checks, c.endpoint_id = item.ep.id →
        c.checked_at ≤ item.nowUtc) →
      (statusUnique db' ∧ statusFresh db' ∧
        (∀ c ∈ db.checks, c ∈ db'.checks) ∧
        (∀ s ∈ db.statuses, s.endpoint_id ∉ rows.map (fun i => i.ep.id) →
          s ∈ db'.statuses) ∧
        (∀ item ∈ rows, ∃ r, probe item = .ok r ∧
          mkCheckRow item r ∈ db'.checks ∧
          db'.statuses.find? (fun s => s.endpoint_id == item.ep.id) =
            some (mkStatusRow item r))) := by
  intro rows
  induction rows with
  | nil =>
    intro db db' hrun huniq hfresh _ _
    have hdb : db = db' := by
      simpa [processBatchRun, pure, Except.pure] using hrun
    subst hdb
    exact ⟨huniq, hfresh, fun c hc => hc, fun s hs _ => hs, by simp⟩
  | cons item rest ih =>
    intro db db' hrun huniq hfresh hnodup htime
    simp only [processBatchRun, bind, Except.bind] at hrun
    cases hstep : processEndpoint probe db item with
    | error e => rw [hstep] at hrun; cases hrun
    | ok db1 =>
      rw [hstep] at hrun
      obtain ⟨r, hr, hdb1⟩ := processEndpoint_ok probe db item db1 hstep
      subst hdb1
      simp only [List.map_cons, List.nodup_cons] at hnodup
      have huniq1 : statusUnique ⟨db.checks ++ [mkCheckRow item r],
          upsertStatus db.statuses (mkStatusRow item r)⟩ :=
        upsertStatus_nodup db.statuses (mkStatusRow item r) huniq
      have hfresh1 : statusFresh ⟨db.checks ++ [mkCheckRow item r],
          upsertStatus db.statuses (mkStatusRow item r)⟩ := by
        intro s hs c hc hid
        rcases List.mem_append.mp hc with hcold | hcnew
        · rcases upsertStatus_mem_or db.statuses (mkStatusRow item r) s hs with h1 | h1
          · subst h1
            exact htime item (List.mem_cons_self item rest) c hcold hid
          · exact hfresh s h1 c hcold hid
        · have hc2 : c = mkCheckRow item r := List.mem_singleton.mp hcnew
          subst hc2
          have hs2 : s = mkStatusRow item r :=
            upsertStatus_unique_id db.statuses (mkStatusRow item r) s huniq hs
              hid.symm
          subst hs2
          exact le_refl _
      have htime1 : ∀ it ∈ rest, ∀ c ∈ db.checks ++ [mkCheckRow item r],
          c.endpoint_id = it.ep.id → c.checked_at ≤ it.nowUtc := by
        intro it hit c hc hid
        rcases List.mem_append.mp hc with hcold | hcnew
        · exact htime it (List.mem_cons_of_mem item hit) c hcold hid
        · have hc2 : c = mkCheckRow item r := List.mem_singleton.mp hcnew
          subst hc2
          exact absurd (List.mem_map.mpr ⟨it, hit, hid.symm⟩) hnodup.1
      obtain ⟨hA, hB, hC, hD, hE⟩ := ih _ db' hrun huniq1 hfresh1 hnodup.2 htime1
      refine ⟨hA, hB, ?_, ?_, ?_⟩
      · intro c hc
        exact hC c (List.mem_append.mpr (Or.inl hc))
      · intro s hs hnotmem
        simp only [List.map_cons, List.mem_cons, not_or] at hnotmem
        refine hD s ?_ hnotmem.2
        exact upsertStatus_keeps_other db.statuses (mkStatusRow item r) s hs
          hnotmem.1
      · intro it hit
        rcases List.mem_cons.mp hit with h | h
        · subst h
          refine ⟨r, hr, ?_, ?_⟩
          · exact hC (mkCheckRow it r)
              (List.mem_append.mpr (Or.inr (List.mem_singleton.mpr rfl)))
          · have hmem : mkStatusRow it r ∈ db'.statuses := by
              refine hD (mkStatusRow it r) (upsertStatus_self_mem _ _) ?_
              intro hmem2
              rcases List.mem_map.mp hmem2 with ⟨x, hx, hxid⟩
              exact absurd (List.mem_map.mpr ⟨x, hx, hxid⟩) hnodup.1
            exact find?_eq_of_nodup db'.statuses (mkStatusRow it r) hA hmem
        · exact hE it h

/-- C9: after a successful `process_batch` iteration over distinct enabled
endpoints, each endpoint still has at most one `EndpointStatus` row (insert
if absent, else overwritten in place); the row recorded for each processed
endpoint and the `Check` row appended for it in the same iteration are built
from the same probe result and the single per-endpoint timestamp, so every
field — `checked_at` included — agrees; and every `EndpointStatus` row's
`checked_at` is ≥ the `checked_at` of every `Check` row of its endpoint. -/
theorem process_batch_status_invariant
    (probe : BatchItem → Except Str CheckResult) (rows : List BatchItem)
    (db db' : DB)
    (hrun : processBatchRun probe rows db = .ok db')
    (huniq : statusUnique db) (hfresh : statusFresh db)
    (hnodup : (rows.map (fun i => i.ep.id)).Nodup)
    (htime : ∀ item ∈ rows, ∀ c ∈ db.checks, c.endpoint_id = item.ep.id →
      c.checked_at ≤ item.nowUtc) :
    statusUnique db' ∧ statusFresh db' ∧
    (∀ (item : BatchItem) (r : CheckResult),
      (mkStatusRow item r).endpoint_id = (mkCheckRow item r).endpoint_id ∧
      (mkStatusRow item r).is_available = (mkCheckRow item r).is_available ∧
      (mkStatusRow item r).status_code = (mkCheckRow item r).status_code ∧
      (mkStatusRow item r).block_delay_ms = (mkCheckRow item r).block_delay_ms ∧
      (mkStatusRow item r).last_block_height = (mkCheckRow item r).last_block_height ∧
      (mkStatusRow item r).error_message = (mkCheckRow item r).error_message ∧
      (mkStatusRow item r).checked_at = (mkCheckRow item r).checked_at) ∧
    (∀ item ∈ rows, ∃ r, probe item = .ok r ∧
      mkCheckRow item r ∈ db'.checks ∧
      db'.statuses.find? (fun s => s.endpoint_id == item.ep.id) =
        some (mkStatusRow item r)) := by
  have h := processBatchRun_invariants probe rows db db' hrun huniq hfresh
    hnodup htime
  exact ⟨h.1, h.2.1, fun item r => ⟨rfl, rfl, rfl, rfl, rfl, rfl, rfl⟩,
    h.2.2.2.2⟩

/-- A probe that always succeeds with a fixed result. -/
def okProbe : BatchItem → Except Str CheckResult := fun _ =>
  .ok ⟨true, some 200, some 5, .vstr "7".data, none⟩

def c9rows : List BatchItem := [batchItem1, batchItem2]

/-- The state `process_batch` produces from an empty store over `c9rows`. -/
def c9db : DB :=
  ⟨[⟨1, true, some 200, some 5, .vstr "7".data, none, 10⟩,
    ⟨2, true, some 200, some 5, .vstr "7".data, none, 10⟩],
   [⟨1, true, some 200, some 5, .vstr "7".data, none, 10⟩,
    ⟨2, true, some 200, some 5, .vstr "7".data, none, 10⟩]⟩

/-- C9 witness: the invariant at a concrete two-endpoint batch run from an
empty store. -/
theorem process_batch_status_invariant_witness :
    statusUnique c9db ∧ statusFresh c9db ∧
    (∀ (item : BatchItem) (r : CheckResult),
      (mkStatusRow item r).endpoint_id = (mkCheckRow item r).endpoint_id ∧
      (mkStatusRow item r).is_available = (mkCheckRow item r).is_available ∧
      (mkStatusRow item r).status_code = (mkCheckRow item r).status_code ∧
      (mkStatusRow item r).block_delay_ms = (mkCheckRow item r).block_delay_ms ∧
      (mkStatusRow item r).last_block_height = (mkCheckRow item r).last_block_height ∧
      (mkStatusRow item r).error_message = (mkCheckRow item r).error_message ∧
      (mkStatusRow item r).checked_at = (mkCheckRow item r).checked_at) ∧
    (∀ item ∈ c9rows, ∃ r, okProbe item = .ok r ∧
      mkCheckRow item r ∈ c9db.checks ∧
      c9db.statuses.find? (fun s => s.endpoint_id == item.ep.id) =
        some (mkStatusRow item r)) :=
  process_batch_status_invariant okProbe c9rows ⟨[], []⟩ c9db (by decide)
    (by simp [statusUnique]) (by intro s hs; cases hs) (by decide)
    (by intro item _ c hc; cases hc)
